import Mathlib

/-!
Verification of the Safe Balance Calculator of gnucash-web
(`gnucash_web/utils/jinja.py : safe_balance`) and of the ledger-opening
error classification (`gnucash_web/utils/gnucash.py : open_book`),
against the repository's specification and its test suite
(`tests/test_utils_jinja.py`, `tests/test_utils_gnucash.py`).

Monetary amounts are exact decimals in the source; they are embedded as
rationals (`ℚ`), of which decimals are a subring, so all arithmetic is
exact.  A commodity is identified by an id.  The two external
primitives, `get_balance` and `currency_conversion`, are oracles passed
as parameters; a raised `GncConversionError` is embedded as the
`Except.error` branch of their result.
-/

/-- A commodity (currency or tradeable instrument), identified by an id. -/
abbrev Commodity := Nat

/-- The single external failure kind: "conversion unavailable"
(`piecash._common.GncConversionError`). -/
inductive ConvErr where
  | cannotConvert

/-- A split: a signed monetary entry posted to one account; its `value` is
denominated in the owning account's commodity. -/
structure Split where
  value : ℚ

/-- An account: a node of the finite, acyclic chart-of-accounts tree, with a
commodity, the splits directly posted to it, and its child accounts. -/
inductive Account where
  | mk (commodity : Commodity) (splits : List Split) (children : List Account)

/-- The commodity an account is denominated in. -/
def Account.commodity : Account → Commodity
  | .mk c _ _ => c

/-- The splits directly posted to an account. -/
def Account.splits : Account → List Split
  | .mk _ s _ => s

/-- The child accounts of an account. -/
def Account.children : Account → List Account
  | .mk _ _ ch => ch

/-- Modelled from the spec: the conversion-factor lookup used by the fallback
path (`gnucash_web/utils/jinja.py` is absent from `src/`; spec §4.1 step 3a-3b).
If the child's commodity is identical to the target the factor is exactly 1,
bypassing the external primitive (which would incorrectly raise for
same-commodity conversion); otherwise the external `currency_conversion`
oracle is consulted. -/
def conversion_factor (conv : Commodity → Commodity → Except ConvErr ℚ)
    (source target : Commodity) : Except ConvErr ℚ :=
  if source = target then .ok 1 else conv source target

mutual

/-- Modelled from the spec: `safe_balance` of `gnucash_web/utils/jinja.py`
(absent from `src/`; spec §4.1).  Primary path: return the external
`get_balance` result unchanged when it succeeds.  Fallback path (on a
conversion error): sum the account's own split values, then add, for each
child whose conversion factor is obtainable, factor times the child's own
`safe_balance`; children whose factor lookup fails are skipped. -/
def safe_balance (gb : Account → Except ConvErr ℚ)
    (conv : Commodity → Commodity → Except ConvErr ℚ) : Account → Except ConvErr ℚ
  | .mk c splits children =>
    match gb (.mk c splits children) with
    | .ok b => .ok b
    | .error _ =>
      .ok ((splits.map Split.value).sum + children_total gb conv c children)

/-- Modelled from the spec: the per-child loop of the fallback path (spec §4.1
step 3).  Each child's contribution is its conversion factor times its own
`safe_balance` when the factor is obtainable, and 0 (skip, never an error)
when it is not. -/
def children_total (gb : Account → Except ConvErr ℚ)
    (conv : Commodity → Commodity → Except ConvErr ℚ)
    (target : Commodity) : List Account → ℚ
  | [] => 0
  | child :: rest =>
    (match conversion_factor conv (Account.commodity child) target with
     | .error _ => 0
     | .ok f =>
       match safe_balance gb conv child with
       | .ok b => f * b
       | .error _ => 0) + children_total gb conv target rest

end

/-- The numeric value computed by `safe_balance` (its payload on the `ok`
branch; `safe_balance` never takes the `error` branch). -/
def balance_value (gb : Account → Except ConvErr ℚ)
    (conv : Commodity → Commodity → Except ConvErr ℚ) (a : Account) : ℚ :=
  match safe_balance gb conv a with
  | .ok b => b
  | .error _ => 0

/-- The contribution of one child in the fallback path, in closed form. -/
def child_contribution (gb : Account → Except ConvErr ℚ)
    (conv : Commodity → Commodity → Except ConvErr ℚ)
    (target : Commodity) (child : Account) : ℚ :=
  match conversion_factor conv (Account.commodity child) target with
  | .error _ => 0
  | .ok f => f * balance_value gb conv child

/-- Joint induction over the nested `Account` tree and child lists. -/
theorem Account.ind_pair {P : Account → Prop} {Q : List Account → Prop}
    (hmk : ∀ c s ch, Q ch → P (.mk c s ch))
    (hnil : Q [])
    (hcons : ∀ a l, P a → Q l → Q (a :: l)) :
    (∀ a, P a) ∧ (∀ l, Q l) :=
  ⟨fun a => Account.rec hmk hnil hcons a,
   fun l => List.rec hnil
     (fun a l ih => hcons a l (Account.rec hmk hnil hcons a) ih) l⟩

theorem safe_balance_eq_ok (gb : Account → Except ConvErr ℚ)
    (conv : Commodity → Commodity → Except ConvErr ℚ) (a : Account) :
    safe_balance gb conv a = .ok (balance_value gb conv a) := by
  cases a with
  | mk c s ch =>
    unfold balance_value
    cases h : gb (.mk c s ch) <;> simp [safe_balance, h]

theorem children_total_eq_map_sum (gb : Account → Except ConvErr ℚ)
    (conv : Commodity → Commodity → Except ConvErr ℚ)
    (target : Commodity) (l : List Account) :
    children_total gb conv target l =
      (l.map (child_contribution gb conv target)).sum := by
  induction l with
  | nil => simp [children_total]
  | cons child rest ih =>
    rw [List.map_cons, List.sum_cons, children_total, ih]
    congr 1
    unfold child_contribution
    cases hf : conversion_factor conv (Account.commodity child) target with
    | error e => rfl
    | ok f => rw [safe_balance_eq_ok gb conv child]

/-- C1: for every account (and any behavior of the external `get_balance` and
`currency_conversion` oracles, including always failing), `safe_balance`
returns a value: its result is always on the `ok` branch, never a conversion
error — no failure of either oracle reaches the caller. -/
theorem safe_balance_never_raises (gb : Account → Except ConvErr ℚ)
    (conv : Commodity → Commodity → Except ConvErr ℚ) (a : Account) :
    ∃ q : ℚ, safe_balance gb conv a = .ok q :=
  ⟨balance_value gb conv a, safe_balance_eq_ok gb conv a⟩

/-- C2: whenever the external `get_balance` succeeds on an account,
`safe_balance` returns exactly that result, unchanged. -/
theorem safe_balance_eq_get_balance (gb : Account → Except ConvErr ℚ)
    (conv : Commodity → Commodity → Except ConvErr ℚ) (a : Account) (b : ℚ)
    (h : gb a = .ok b) :
    safe_balance gb conv a = .ok b := by
  cases a with
  | mk c s ch => simp [safe_balance, h]

/-- Oracles and account for the C2 witness: `get_balance` always succeeds
with 1000, conversion always fails. -/
def gbOkW : Account → Except ConvErr ℚ := fun _ => .ok 1000

def convFailW : Commodity → Commodity → Except ConvErr ℚ :=
  fun _ _ => .error .cannotConvert

def accW : Account := .mk 0 [] []

theorem safe_balance_eq_get_balance_witness :
    gbOkW accW = .ok 1000 ∧ safe_balance gbOkW convFailW accW = .ok 1000 :=
  ⟨rfl, safe_balance_eq_get_balance gbOkW convFailW accW 1000 rfl⟩

/-- C3: when the external `get_balance` raises a conversion error on an
account, `safe_balance` returns the sum of the account's own split values
(no conversion applied) plus, over all children, the child's conversion
factor times the child's own `safe_balance` when a factor is obtainable and
nothing otherwise, starting from zero. -/
theorem safe_balance_fallback_formula (gb : Account → Except ConvErr ℚ)
    (conv : Commodity → Commodity → Except ConvErr ℚ)
    (c : Commodity) (s : List Split) (ch : List Account) (e : ConvErr)
    (h : gb (.mk c s ch) = .error e) :
    safe_balance gb conv (.mk c s ch) =
      .ok ((s.map Split.value).sum + (ch.map (child_contribution gb conv c)).sum) := by
  simp [safe_balance, h, children_total_eq_map_sum]

/-- Oracle for the C3 witness: `get_balance` always raises. -/
def gbFailW : Account → Except ConvErr ℚ := fun _ => .error .cannotConvert

/-- Account for the C3 witness: two own splits (100 and 200), no children. -/
def accSplitsW : Account := .mk 0 [⟨100⟩, ⟨200⟩] []

theorem safe_balance_fallback_formula_witness :
    gbFailW accSplitsW = .error .cannotConvert ∧
      safe_balance gbFailW convFailW accSplitsW = .ok 300 :=
  ⟨rfl, by
    have h := safe_balance_fallback_formula gbFailW convFailW
      0 [⟨100⟩, ⟨200⟩] [] .cannotConvert rfl
    norm_num at h
    exact h⟩

/-- C4: in the fallback path, a child whose commodity equals the account's
commodity is included with factor exactly 1 — its full `safe_balance` value
is added — even when the external `currency_conversion` oracle raises for
that same-commodity pair (the identity case never consults the oracle). -/
theorem fallback_same_commodity_child (gb : Account → Except ConvErr ℚ)
    (conv : Commodity → Commodity → Except ConvErr ℚ)
    (target : Commodity) (child : Account) (rest : List Account)
    (hc : Account.commodity child = target)
    (_hconv : conv (Account.commodity child) target = .error .cannotConvert) :
    children_total gb conv target (child :: rest) =
      balance_value gb conv child + children_total gb conv target rest := by
  simp only [children_total, conversion_factor, if_pos hc,
    safe_balance_eq_ok gb conv child, one_mul]

/-- Oracle for the C4 witness (mirrors
`TestSafeBalance.test_fallback_includes_same_commodity_children`):
the USD child (commodity 0, no children) has balance 500, the child in the
unpriced commodity 1 has balance 1000, every other account fails. -/
def gbSame : Account → Except ConvErr ℚ
  | .mk 1 _ _ => .ok 1000
  | .mk 0 _ [] => .ok 500
  | _ => .error .cannotConvert

def childUsdW : Account := .mk 0 [] []

def childBadW : Account := .mk 1 [] []

def accSameW : Account := .mk 0 [] [childUsdW, childBadW]

theorem fallback_same_commodity_child_witness :
    (Account.commodity childUsdW = 0 ∧
      convFailW (Account.commodity childUsdW) 0 = .error .cannotConvert) ∧
    children_total gbSame convFailW 0 [childUsdW, childBadW] =
      balance_value gbSame convFailW childUsdW +
        children_total gbSame convFailW 0 [childBadW] ∧
    safe_balance gbSame convFailW accSameW = .ok 500 :=
  ⟨⟨rfl, rfl⟩,
   fallback_same_commodity_child gbSame convFailW 0 childUsdW [childBadW] rfl rfl,
   by simp [safe_balance, children_total, conversion_factor, balance_value,
        accSameW, childUsdW, childBadW, gbSame, convFailW, Account.commodity]⟩

/-- C5: in the fallback path, a child whose commodity differs from the
account's and whose conversion-factor lookup fails is skipped entirely — it
contributes nothing and no error is produced — while the remaining children's
total is unchanged. -/
theorem fallback_skips_unconvertible_child (gb : Account → Except ConvErr ℚ)
    (conv : Commodity → Commodity → Except ConvErr ℚ)
    (target : Commodity) (child : Account) (rest : List Account) (e : ConvErr)
    (hc : Account.commodity child ≠ target)
    (hconv : conv (Account.commodity child) target = .error e) :
    children_total gb conv target (child :: rest) =
      children_total gb conv target rest := by
  rw [children_total, conversion_factor, if_neg hc, hconv, zero_add]

/-- Oracles for the C5 witness (mirrors
`TestSafeBalance.test_fallback_includes_convertible_children`): commodity 0
is USD, commodity 1 a stock priced at 100 per unit, commodity 2 unpriced.
The stock child holds 10 units, the USD child 200, the unpriced child 9999. -/
def gbConvertible : Account → Except ConvErr ℚ
  | .mk 1 _ _ => .ok 10
  | .mk 2 _ _ => .ok 9999
  | .mk 0 _ [] => .ok 200
  | _ => .error .cannotConvert

def convStock : Commodity → Commodity → Except ConvErr ℚ :=
  fun s t => if s = 1 ∧ t = 0 then .ok 100 else .error .cannotConvert

def childStockW : Account := .mk 1 [] []

def childUsd200W : Account := .mk 0 [] []

def childUnpricedW : Account := .mk 2 [] []

def accConvertibleW : Account := .mk 0 [] [childStockW, childUsd200W, childUnpricedW]

theorem fallback_skips_unconvertible_child_witness :
    (Account.commodity childUnpricedW ≠ 0 ∧
      convStock (Account.commodity childUnpricedW) 0 = .error .cannotConvert) ∧
    children_total gbConvertible convStock 0 [childUnpricedW] =
      children_total gbConvertible convStock 0 [] ∧
    safe_balance gbConvertible convStock accConvertibleW = .ok 1200 :=
  ⟨⟨by simp [childUnpricedW, Account.commodity], rfl⟩,
   fallback_skips_unconvertible_child gbConvertible convStock 0 childUnpricedW []
     .cannotConvert (by simp [childUnpricedW, Account.commodity]) rfl,
   by norm_num [safe_balance, children_total, conversion_factor, balance_value,
        accConvertibleW, childStockW, childUsd200W, childUnpricedW,
        gbConvertible, convStock, Account.commodity]⟩

/-- C7: an account with no splits and no children whose direct `get_balance`
raises a conversion error has `safe_balance` exactly 0. -/
theorem safe_balance_empty_fallback (gb : Account → Except ConvErr ℚ)
    (conv : Commodity → Commodity → Except ConvErr ℚ)
    (c : Commodity) (e : ConvErr)
    (h : gb (.mk c [] []) = .error e) :
    safe_balance gb conv (.mk c [] []) = .ok 0 := by
  simp [safe_balance, h, children_total]

theorem safe_balance_empty_fallback_witness :
    gbFailW (.mk 0 [] []) = .error .cannotConvert ∧
      safe_balance gbFailW convFailW (.mk 0 [] []) = .ok 0 :=
  ⟨rfl, safe_balance_empty_fallback gbFailW convFailW 0 .cannotConvert rfl⟩

/-- Oracles and accounts for the three-level C6 scenario (mirrors
`TestSafeBalance.test_fallback_with_nested_fallback`): commodity 0 is USD,
commodity 1 the AA points (priced at 0.01 USD per point), commodity 2 the
Delta miles (unpriced).  `get_balance` yields 5000 on the AA leaf, 10000 on
the Delta leaf, 1000 on Checking (USD, no children), and raises on Points
and Assets (USD accounts with children). -/
def gbNested : Account → Except ConvErr ℚ
  | .mk 1 _ _ => .ok 5000
  | .mk 2 _ _ => .ok 10000
  | .mk 0 _ [] => .ok 1000
  | _ => .error .cannotConvert

def convNested : Commodity → Commodity → Except ConvErr ℚ :=
  fun s t => if s = 1 ∧ t = 0 then .ok (1 / 100) else .error .cannotConvert

def childAaW : Account := .mk 1 [] []

def childDeltaW : Account := .mk 2 [] []

def checkingW : Account := .mk 0 [] []

def pointsW : Account := .mk 0 [] [childAaW, childDeltaW]

def assetsW : Account := .mk 0 [] [checkingW, pointsW]

/-- C6: the fallback applies transitively: in the three-level scenario
Assets(USD) → {Checking(USD, 1000), Points(USD) → {AA (5000 units at 0.01),
Delta (unconvertible)}}, only the failing Delta edge is skipped — Points still
contributes its own safe balance of 50, and `safe_balance` of Assets is
1000 + 5000·0.01 = 1050. -/
theorem safe_balance_nested_fallback :
    safe_balance gbNested convNested assetsW = .ok 1050 ∧
      safe_balance gbNested convNested pointsW = .ok 50 := by
  constructor <;>
    norm_num [safe_balance, children_total, conversion_factor,
      assetsW, pointsW, checkingW, childAaW, childDeltaW,
      gbNested, convNested, Account.commodity]

/-- The externally owned data the calculator reads: the materialized account
forest and the known commodities.  `safe_balance` only reads it. -/
structure Book where
  accounts : List Account
  commodities : List Commodity

mutual

/-- Modelled from the spec: `safe_balance` with the externally owned `Book`
threaded through every step of the traversal, making any creation, mutation
or destruction of accounts, splits or commodities observable in the returned
book (spec §3: "No entity is created, mutated, or destroyed by this
component"; §4.1 "Side effects: none — read-only traversal"). -/
def safe_balance_book (gb : Account → Except ConvErr ℚ)
    (conv : Commodity → Commodity → Except ConvErr ℚ) :
    Account → Book → Except ConvErr ℚ × Book
  | .mk c splits children, book =>
    match gb (.mk c splits children) with
    | .ok b => (.ok b, book)
    | .error _ =>
      match children_total_book gb conv c children book with
      | (q, book') => (.ok ((splits.map Split.value).sum + q), book')

/-- The per-child fallback loop with the `Book` threaded through. -/
def children_total_book (gb : Account → Except ConvErr ℚ)
    (conv : Commodity → Commodity → Except ConvErr ℚ)
    (target : Commodity) : List Account → Book → ℚ × Book
  | [], book => (0, book)
  | child :: rest, book =>
    match conversion_factor conv (Account.commodity child) target with
    | .error _ =>
      match children_total_book gb conv target rest book with
      | (tail, book') => (0 + tail, book')
    | .ok f =>
      match safe_balance_book gb conv child book with
      | (r, book₁) =>
        match children_total_book gb conv target rest book₁ with
        | (tail, book₂) =>
          ((match r with | .ok b => f * b | .error _ => 0) + tail, book₂)

end

theorem safe_balance_book_pure_all (gb : Account → Except ConvErr ℚ)
    (conv : Commodity → Commodity → Except ConvErr ℚ) :
    (∀ a : Account, ∀ book : Book,
        safe_balance_book gb conv a book = (safe_balance gb conv a, book)) ∧
    (∀ l : List Account, ∀ (target : Commodity) (book : Book),
        children_total_book gb conv target l book =
          (children_total gb conv target l, book)) := by
  refine Account.ind_pair ?_ ?_ ?_
  · intro c s ch ih book
    cases h : gb (.mk c s ch) with
    | ok b => simp [safe_balance_book, safe_balance, h]
    | error e => simp [safe_balance_book, safe_balance, h, ih]
  · intro target book
    simp [children_total_book, children_total]
  · intro child l ihc ihl target book
    cases hf : conversion_factor conv (Account.commodity child) target with
    | error e => simp [children_total_book, children_total, hf, ihl]
    | ok f => simp [children_total_book, children_total, hf, ihc, ihl]

/-- C8: `safe_balance` is a pure read-only query — running the traversal with
the externally owned book of accounts and commodities threaded through every
step returns the book unchanged (nothing is created, mutated or destroyed)
together with exactly the value of the pure `safe_balance`. -/
theorem safe_balance_read_only (gb : Account → Except ConvErr ℚ)
    (conv : Commodity → Commodity → Except ConvErr ℚ)
    (a : Account) (book : Book) :
    safe_balance_book gb conv a book = (safe_balance gb conv a, book) :=
  (safe_balance_book_pure_all gb conv).1 a book

mutual

/-- Height of an account tree: 1 for the node plus the height of its
tallest child subtree. -/
def Account.depth : Account → Nat
  | .mk _ _ children => Account.depthList children + 1

/-- Height of the tallest tree in a list of account trees. -/
def Account.depthList : List Account → Nat
  | [] => 0
  | a :: l => max (Account.depth a) (Account.depthList l)

end

mutual

/-- `safe_balance` with an explicit recursion-fuel bound: `none` means the
fuel ran out before the traversal finished, otherwise the traversal performed
exactly the recursion of `safe_balance`. -/
def safe_balance_fuel (gb : Account → Except ConvErr ℚ)
    (conv : Commodity → Commodity → Except ConvErr ℚ) :
    Nat → Account → Option (Except ConvErr ℚ)
  | 0, _ => none
  | n + 1, .mk c splits children =>
    match gb (.mk c splits children) with
    | .ok b => some (.ok b)
    | .error _ =>
      match children_total_fuel gb conv c n children with
      | none => none
      | some q => some (.ok ((splits.map Split.value).sum + q))
termination_by n _ => (n, 0)

/-- The per-child fallback loop with an explicit recursion-fuel bound. -/
def children_total_fuel (gb : Account → Except ConvErr ℚ)
    (conv : Commodity → Commodity → Except ConvErr ℚ)
    (target : Commodity) : Nat → List Account → Option ℚ
  | _, [] => some 0
  | n, child :: rest =>
    match conversion_factor conv (Account.commodity child) target with
    | .error _ =>
      match children_total_fuel gb conv target n rest with
      | none => none
      | some tail => some (0 + tail)
    | .ok f =>
      match safe_balance_fuel gb conv n child with
      | none => none
      | some r =>
        match children_total_fuel gb conv target n rest with
        | none => none
        | some tail =>
          some ((match r with | .ok b => f * b | .error _ => 0) + tail)
termination_by n l => (n, l.length + 1)

end

theorem safe_balance_fuel_all (gb : Account → Except ConvErr ℚ)
    (conv : Commodity → Commodity → Except ConvErr ℚ) :
    (∀ a : Account, ∀ n : Nat, Account.depth a ≤ n →
        safe_balance_fuel gb conv n a = some (safe_balance gb conv a)) ∧
    (∀ l : List Account, ∀ (target : Commodity) (n : Nat),
        Account.depthList l ≤ n →
          children_total_fuel gb conv target n l =
            some (children_total gb conv target l)) := by
  refine Account.ind_pair ?_ ?_ ?_
  · intro c s ch ih n hn
    rw [Account.depth] at hn
    cases n with
    | zero => omega
    | succ m =>
      cases h : gb (.mk c s ch) with
      | ok b => simp [safe_balance_fuel, safe_balance, h]
      | error e =>
        simp [safe_balance_fuel, safe_balance, h, ih c m (by omega)]
  · intro target n _
    simp [children_total_fuel, children_total]
  · intro child l ihc ihl target n hn
    rw [Account.depthList] at hn
    cases hf : conversion_factor conv (Account.commodity child) target with
    | error e =>
      simp [children_total_fuel, children_total, hf,
        ihl target n (by omega)]
    | ok f =>
      simp [children_total_fuel, children_total, hf,
        ihc n (by omega), ihl target n (by omega)]

/-- C9: the fallback traversal terminates on every finite, acyclic account
tree — fuel equal to the tree's height is always enough: the fuel-bounded
traversal never runs out and computes exactly `safe_balance`. -/
theorem safe_balance_terminates (gb : Account → Except ConvErr ℚ)
    (conv : Commodity → Commodity → Except ConvErr ℚ)
    (a : Account) (n : Nat) (h : Account.depth a ≤ n) :
    safe_balance_fuel gb conv n a = some (safe_balance gb conv a) :=
  (safe_balance_fuel_all gb conv).1 a n h

theorem safe_balance_terminates_witness :
    Account.depth (Account.mk 0 [] []) ≤ 1 ∧
      safe_balance_fuel gbFailW convFailW 1 (Account.mk 0 [] []) =
        some (safe_balance gbFailW convFailW (Account.mk 0 [] [])) :=
  ⟨by simp [Account.depth, Account.depthList],
   safe_balance_terminates gbFailW convFailW (Account.mk 0 [] []) 1
     (by simp [Account.depth, Account.depthList])⟩

/-- Does the pattern match at the front of the character list? -/
def leadMatch : List Char → List Char → Bool
  | [], _ => true
  | _ :: _, [] => false
  | p :: ps, c :: cs => p == c && leadMatch ps cs

/-- Does the pattern occur anywhere in the character list? -/
def hasSubstr : List Char → List Char → Bool
  | p, [] => leadMatch p []
  | p, c :: cs => leadMatch p (c :: cs) || hasSubstr p cs

/-- Does the string `s` contain `pat` as a substring? -/
def strContains (s pat : String) : Bool := hasSubstr pat.toList s.toList

/-- An underlying failure surfaced by the ledger library while opening the
book: a `piecash.GnucashException` or an `sqlalchemy.exc.OperationalError`,
each carrying its message. -/
inductive PiecashError where
  | gnucashException (msg : String)
  | operationalError (msg : String)

/-- What `open_book` raises to its caller for an underlying failure. -/
inductive OpenBookOutcome where
  | databaseLocked
  | accessDenied (msg : String)
  | reraised (e : PiecashError)

/-- The HTTP status attached to an `open_book` outcome (`DatabaseLocked` is a
`werkzeug.exceptions.Locked`, HTTP 423; the other outcomes carry none). -/
def OpenBookOutcome.httpStatus : OpenBookOutcome → Option Nat
  | .databaseLocked => some 423
  | .accessDenied _ => none
  | .reraised _ => none

/-- Modelled from the spec: the failure classification of `open_book` in
`gnucash_web/utils/gnucash.py` (absent from `src/`; behavior fixed by
`tests/test_utils_gnucash.py : TestOpenBook` and `TestExceptions`).  A
`GnucashException` reporting an active file lock becomes `DatabaseLocked`,
an `OperationalError` whose message contains "Access denied" becomes
`AccessDenied`, and every other underlying failure is re-raised unchanged. -/
def open_book_error_result : PiecashError → OpenBookOutcome
  | .gnucashException msg =>
    if strContains msg "Lock on the file is active" then .databaseLocked
    else .reraised (.gnucashException msg)
  | .operationalError msg =>
    if strContains msg "Access denied" then .accessDenied msg
    else .reraised (.operationalError msg)

/-- C10: `open_book` classifies underlying failures: a `GnucashException`
reporting an active file lock is raised as `DatabaseLocked` (HTTP 423), an
`OperationalError` whose message contains "Access denied" is raised as
`AccessDenied`, and every other `GnucashException` or `OperationalError` is
re-raised unchanged. -/
theorem open_book_error_classification :
    (∀ msg, strContains msg "Lock on the file is active" = true →
      open_book_error_result (.gnucashException msg) = .databaseLocked) ∧
    OpenBookOutcome.httpStatus .databaseLocked = some 423 ∧
    (∀ msg, strContains msg "Access denied" = true →
      open_book_error_result (.operationalError msg) = .accessDenied msg) ∧
    (∀ msg, strContains msg "Lock on the file is active" = false →
      open_book_error_result (.gnucashException msg) =
        .reraised (.gnucashException msg)) ∧
    (∀ msg, strContains msg "Access denied" = false →
      open_book_error_result (.operationalError msg) =
        .reraised (.operationalError msg)) := by
  refine ⟨?_, rfl, ?_, ?_, ?_⟩ <;> intro msg h <;>
    simp [open_book_error_result, h]

theorem open_book_error_classification_witness :
    open_book_error_result (.gnucashException "Lock on the file is active") =
      .databaseLocked ∧
    open_book_error_result (.operationalError "Access denied for user bad") =
      .accessDenied "Access denied for user bad" ∧
    open_book_error_result (.gnucashException "Some other error") =
      .reraised (.gnucashException "Some other error") ∧
    open_book_error_result (.operationalError "Connection refused") =
      .reraised (.operationalError "Connection refused") :=
  ⟨open_book_error_classification.1 "Lock on the file is active" (by decide),
   open_book_error_classification.2.2.1 "Access denied for user bad" (by decide),
   open_book_error_classification.2.2.2.1 "Some other error" (by decide),
   open_book_error_classification.2.2.2.2 "Connection refused" (by decide)⟩
